import Mathlib

/-!
Shallow embedding of the pfui execution core (package `toolexec` and the
Bubble Tea session loop in `internal/tui/chat.go`), with theorems checking
the natural-language specification against it.

Conventions used throughout:
* Go machine integers that can be negative (exit codes) are `Int`; counters,
  lengths and indices are `Nat`.
* `uuid.NewString` is embedded as a fresh natural number drawn from a
  monotone counter (`nextUuid`); the uniqueness of generated UUIDs is the
  contract of the uuid library.
* `time.Time` values are abstract clock ticks (`Nat`) supplied by the trace.
* Go maps are association lists; Go map deletion removes the key.
* A Go channel of capacity 32 is a list of at most 32 buffered values; a
  non-blocking send (`select`/`default`) appends when there is room and is
  the identity otherwise.
* Fallible calls (`cmd.Run`, `StreamChat`, `ListModels`) are embedded by
  passing their outcome as an explicit argument of the step that consumes it.
-/

namespace Pfui

/-- Status of a background job (Go: `type JobStatus string` with the three
constants `JobRunning`, `JobSuccess`, `JobFailed`). -/
inductive JobStatus
  | running
  | success
  | failed
deriving DecidableEq

/-- Metadata of a background execution (Go: `type Job struct`).  Field for
field the Go struct, with `ID` as a counter-drawn `Nat` and the two
`time.Time` fields as abstract ticks. -/
structure Job where
  id : Nat
  command : String
  args : List String
  startedAt : Nat
  endedAt : Nat
  status : JobStatus
  exitCode : Int
  output : String
  error : String
deriving DecidableEq

/-- Lifecycle event (Go: `type Event struct { Job Job }`); the emitted job is
a value copy of the job at emission time. -/
structure Event where
  job : Job
deriving DecidableEq

/-- A shell execution request (Go: `type Request struct`). -/
structure Request where
  command : String
  args : List String
  workdir : String
  background : Bool
deriving DecidableEq

/-- Outcome of a foreground execution (Go: `type Result struct`). -/
structure Result where
  output : String
  exitCode : Int
deriving DecidableEq

/-- The error value returned by Go's `cmd.Run()`: either the process ran and
exited nonzero (`*exec.ExitError`, carrying the exit code reported by
`ExitCode()`), or another error such as a spawn failure (binary not found,
permission denied) or a kill through context cancellation. -/
inductive CmdError
  | exitError (code : Int) (msg : String)
  | otherError (msg : String)
deriving DecidableEq

/-- The observable outcome of one `exec.Cmd.Run` call: the text the process
wrote to the combined stdout/stderr buffer, and the error value (`none` for a
zero exit). -/
structure CmdResult where
  output : String
  err : Option CmdError
deriving DecidableEq

/-- The message text of a `CmdError` (Go: `err.Error()`). -/
def CmdError.message : CmdError → String
  | .exitError _ msg => msg
  | .otherError msg => msg

/-- State of the executor (Go: `type Executor struct`).  `foreground` embeds
`foreground *foregroundCmd` as occupancy of the slot; `jobs` and `cancels`
embed the two maps; `events` is the buffered channel contents.  `pending` is
ghost state: the set of job ids whose spawned worker goroutine has not yet
performed its single terminal write, and `nextUuid` is the ghost counter
backing `uuid.NewString`. -/
structure ExecutorState where
  foreground : Bool
  jobs : List (Nat × Job)
  cancels : List Nat
  events : List Event
  pending : List Nat
  nextUuid : Nat
deriving DecidableEq

/-- Fresh executor (Go: `NewExecutor`): empty maps, empty channel buffer of
capacity 32, no foreground command. -/
def NewExecutor : ExecutorState :=
  { foreground := false, jobs := [], cancels := [], events := [], pending := [], nextUuid := 0 }

/-- Go map read `e.jobs[id]`. -/
def jlookup (id : Nat) : List (Nat × Job) → Option Job
  | [] => none
  | p :: rest => if p.1 = id then some p.2 else jlookup id rest

/-- Go map write `e.jobs[id] = job` for a key already present (the worker
goroutine mutates the job record it registered). -/
def setJob (id : Nat) (j : Job) (l : List (Nat × Job)) : List (Nat × Job) :=
  l.map (fun p => if p.1 = id then (id, j) else p)

/-- Non-blocking publication on the events channel (Go: `Executor.emit`, a
`select` with a `default` arm on a channel created with capacity 32): if the
buffer is full the event is dropped, otherwise it is appended. -/
def emit (j : Job) (s : ExecutorState) : ExecutorState :=
  if s.events.length < 32 then { s with events := s.events ++ [Event.mk j] } else s

/-- Go: `Executor.CancelForeground`.  Returns whether a foreground command
was occupying the slot, clearing it if so (the stored `cancel` context
function is invoked; context cancellation itself is outside the state). -/
def CancelForeground (s : ExecutorState) : Bool × ExecutorState :=
  if s.foreground then (true, { s with foreground := false }) else (false, s)

/-- Go: `Executor.CancelJob`.  Looks the id up in the cancel map, deletes it
when present, and returns whether it was present. -/
def CancelJob (id : Nat) (s : ExecutorState) : Bool × ExecutorState :=
  if id ∈ s.cancels then (true, { s with cancels := s.cancels.erase id }) else (false, s)

/-- Go: `Executor.startBackground` up to the `go func` statement: create the
job record with a fresh uuid, register it in the job and cancel maps, record
the one-shot completion obligation of the spawned goroutine (ghost), and
emit the `running` event. -/
def startBackground (req : Request) (now : Nat) (s : ExecutorState) : Nat × ExecutorState :=
  let id := s.nextUuid
  let job : Job :=
    { id := id, command := req.command, args := req.args, startedAt := now, endedAt := 0,
      status := JobStatus.running, exitCode := 0, output := "", error := "" }
  (id, emit job { s with
      nextUuid := s.nextUuid + 1,
      jobs := s.jobs ++ [(id, job)],
      cancels := s.cancels ++ [id],
      pending := s.pending ++ [id] })

/-- The single terminal mutation the background worker applies to its job
(Go: the body after `err := cmd.Run()` inside `startBackground`'s
goroutine): record output and end time; on error mark `Failed`, record the
error text and the exit code (-1 unless the error is an `ExitError`); on
success mark `Success` with exit code 0. -/
def finishJob (res : CmdResult) (now : Nat) (j : Job) : Job :=
  match res.err with
  | none =>
      { j with output := res.output, endedAt := now,
               status := JobStatus.success, exitCode := 0 }
  | some (CmdError.exitError code msg) =>
      { j with output := res.output, endedAt := now,
               status := JobStatus.failed, error := msg, exitCode := code }
  | some (CmdError.otherError msg) =>
      { j with output := res.output, endedAt := now,
               status := JobStatus.failed, error := msg, exitCode := -1 }

/-- Completion of the background worker goroutine for job `id` (Go: the
locked section of `startBackground`'s goroutine followed by `emit`): apply
the terminal mutation, drop the cancel entry, consume the one-shot
completion obligation, and emit the terminal event.  A completion without a
matching obligation or registered job never happens in the source (each
spawned goroutine runs its body exactly once); the embedding makes it the
identity. -/
def completeBackground (id : Nat) (res : CmdResult) (now : Nat) (s : ExecutorState) : ExecutorState :=
  match jlookup id s.jobs with
  | none => s
  | some j =>
      if id ∈ s.pending then
        let j' := finishJob res now j
        emit j' { s with
            jobs := setJob id j' s.jobs,
            cancels := s.cancels.erase id,
            pending := s.pending.erase id }
      else s

/-- The exit-code chain of `runForeground` (Go: the `if err != nil` block
after `cmd.Run()`): 0 on a nil error, the `ExitError` code when the process
exited nonzero, and -1 for any other error. -/
def exitCodeOfErr : Option CmdError → Int
  | none => 0
  | some (CmdError.exitError code _) => code
  | some (CmdError.otherError _) => -1

/-- Go: `Executor.runForeground` as one atomic call: the foreground slot is
occupied for the duration of `cmd.Run` and cleared afterwards; the returned
`Result` carries the combined output and the exit code `exitCodeOfErr`
computes, and the Go error of `cmd.Run` is returned unchanged alongside. -/
def runForeground (outcome : CmdResult) (s : ExecutorState) :
    (Result × Option CmdError) × ExecutorState :=
  (({ output := outcome.output, exitCode := exitCodeOfErr outcome.err }, outcome.err),
   { s with foreground := false })

/-- Return value of `Executor.Run` (Go: `(Result, string, error)`).  The
three shapes the source produces: the input-validation error for an empty
command, the background path returning only a job id, and the foreground
path returning the result together with the `cmd.Run` error. -/
inductive RunReturn
  | inputError (msg : String)
  | started (id : Nat)
  | finished (res : Result) (err : Option CmdError)
deriving DecidableEq

/-- Go: `Executor.Run`.  Empty command is rejected before any state is
touched; background requests start a tracked job; foreground requests run
the process in the calling task.  `fgOutcome` supplies the outcome of the
`cmd.Run` call on the foreground path. -/
def Run (req : Request) (fgOutcome : CmdResult) (now : Nat) (s : ExecutorState) :
    RunReturn × ExecutorState :=
  if req.command = "" then (RunReturn.inputError ("command is required"), s)
  else if req.background then
    let r := startBackground req now s
    (RunReturn.started r.1, r.2)
  else
    let r := runForeground fgOutcome s
    (RunReturn.finished r.1.1 r.1.2, r.2)

/-- One interaction with the executor, from the executor's point of view.
`runReq` is a `Run` call (atomic for the non-blocking paths; the foreground
path occupies the slot and suspends); `fgDone` is the return of the blocked
foreground `cmd.Run`; `complete` is the terminal write of a background
worker; `drain` is the UI consumer receiving one buffered event. -/
inductive ExecOp
  | runReq (req : Request) (now : Nat)
  | fgDone
  | complete (id : Nat) (res : CmdResult) (now : Nat)
  | cancelFg
  | cancelJob (id : Nat)
  | drain
deriving DecidableEq

/-- Effect of one `ExecOp` on the executor state, translated from the
corresponding source operations. -/
def execStep (s : ExecutorState) (op : ExecOp) : ExecutorState :=
  match op with
  | ExecOp.runReq req now =>
      if req.command = "" then s
      else if req.background then (startBackground req now s).2
      else { s with foreground := true }
  | ExecOp.fgDone => { s with foreground := false }
  | ExecOp.complete id res now => completeBackground id res now s
  | ExecOp.cancelFg => (CancelForeground s).2
  | ExecOp.cancelJob id => (CancelJob id s).2
  | ExecOp.drain => { s with events := s.events.tail }

/-- The executor state after a sequence of interactions starting from
`NewExecutor`. -/
def execTrace (ops : List ExecOp) : ExecutorState :=
  ops.foldl execStep NewExecutor

/-- Bookkeeping invariant of the executor: registry keys are pairwise
distinct and below the uuid counter, as are the cancel and pending sets, a
job that reached a terminal status has no outstanding completion
obligation, and the event buffer respects its capacity. -/
def ExecInv (s : ExecutorState) : Prop :=
  (s.jobs.map Prod.fst).Nodup ∧
  (∀ p ∈ s.jobs, p.1 < s.nextUuid) ∧
  s.cancels.Nodup ∧
  (∀ i ∈ s.cancels, i < s.nextUuid) ∧
  s.pending.Nodup ∧
  (∀ i ∈ s.pending, i < s.nextUuid) ∧
  (∀ p ∈ s.jobs, p.2.status ≠ JobStatus.running → p.1 ∉ s.pending) ∧
  s.events.length ≤ 32

/-- A model advertised by a provider (Go: `provider.Model`); `Tags` is a Go
map embedded as an association list in iteration order. -/
structure PModel where
  name : String
  description : String
  capabilities : List String
  tags : List (String × String)
deriving DecidableEq

/-- The identity of a provider as the catalog code reads it (Go interface
methods `Name()` and `Kind()`). -/
structure ProviderRec where
  name : String
  kind : String
deriving DecidableEq

/-- Go: `strings.ToLower`, applied character by character.  (The
byte-position recursion of `String.toLower` itself does not reduce in the
kernel; this character-list form does, and agrees on the ASCII names the
configuration uses.) -/
def strToLower (s : String) : String :=
  String.mk (s.data.map Char.toLower)

/-- Go: `strings.TrimSpace`: drop leading and trailing whitespace, in
character-list form for the same reason as `strToLower`. -/
def strTrim (s : String) : String :=
  String.mk (((s.data.dropWhile Char.isWhitespace).reverse.dropWhile Char.isWhitespace).reverse)

/-- Go map read `m[k]` on a `map[string][]string`. -/
def wlookup (k : String) : List (String × List String) → Option (List String)
  | [] => none
  | p :: rest => if p.1 = k then some p.2 else wlookup k rest

/-- Go: `model.providerWhitelist`.  The per-provider map is consulted first
under the lowercased provider name, then under the lowercased provider
kind, each only when the entry exists and is non-empty; otherwise the
global whitelist applies.  A nil provider or nil map skips straight to the
global whitelist. -/
def providerWhitelist (globalW : List String) (pw : Option (List (String × List String)))
    (p : Option ProviderRec) : List String :=
  match p, pw with
  | some pr, some m =>
      match wlookup (strToLower pr.name) m with
      | some l =>
          if 0 < l.length then l
          else
            match wlookup (strToLower pr.kind) m with
            | some l' => if 0 < l'.length then l' else globalW
            | none => globalW
      | none =>
          match wlookup (strToLower pr.kind) m with
          | some l' => if 0 < l'.length then l' else globalW
          | none => globalW
  | _, _ => globalW

/-- Go: `buildWhitelistSet`.  Nil for an empty list, otherwise the set of
trimmed non-blank entries; the set is embedded as the list of its members,
membership being what `filterModels` consumes. -/
def buildWhitelistSet (list : List String) : List String :=
  if list.length = 0 then []
  else (list.map strTrim).filter (fun t => !(t == ""))

/-- Go: `filterModels`.  Nil input stays nil, an empty whitelist set passes
everything through unchanged, and otherwise exactly the models whose `Name`
is in the set survive, in input order. -/
def filterModels (models : List PModel) (whitelist : List String) : List PModel :=
  if models.length = 0 then []
  else if whitelist.length = 0 then models
  else models.filter (fun md => md.name ∈ whitelist)

/-- One row of the aggregated model catalog (Go: `type modelCatalogRow`). -/
structure CatalogRow where
  display : String
  provider : String
  modelName : String
  selectable : Bool
deriving DecidableEq

/-- Go: `summarizeTags` (the `", "`-free comma join of `k=v` pairs wrapped
in `" (...)"`, empty for no tags). -/
def summarizeTags (tags : List (String × String)) : String :=
  if tags.length = 0 then ("")
  else (" (") ++ String.intercalate (",") (tags.map (fun kv => kv.1 ++ "=" ++ kv.2)) ++ ")"

/-- The display text built for one fetched model (Go: the
`fmt.Sprintf("%s ▸ %s [%s]%s", ...)` in the `modelFetchMsg` case). -/
def modelDisplay (prov : String) (e : PModel) : String :=
  prov ++ " ▸ " ++ e.name ++ " [" ++ String.intercalate (",") e.capabilities ++ "]"
    ++ summarizeTags e.tags

/-- The selectable catalog row built for one fetched model. -/
def modelRow (prov : String) (e : PModel) : CatalogRow :=
  { display := modelDisplay prov e, provider := prov, modelName := e.name, selectable := true }

/-- The non-selectable error row for a failed provider fetch. -/
def errorRow (prov : String) (err : String) : CatalogRow :=
  { display := prov ++ ": error " ++ err, provider := "", modelName := "", selectable := false }

/-- The non-selectable placeholder row for a provider whose filtered result
is empty. -/
def noMatchRow (prov : String) : CatalogRow :=
  { display := prov ++ ": no models match filter", provider := "", modelName := "",
    selectable := false }

/-- Go: `model.ensureCatalogSelection`, acting on the selection index only:
clamp to the last row, keep a selectable selection, otherwise move to the
first selectable row if any. -/
def ensureCatalogSelection (rows : List CatalogRow) (sel : Nat) : Nat :=
  if rows.length = 0 then 0
  else
    let sel := if rows.length ≤ sel then rows.length - 1 else sel
    if (rows.getD sel (noMatchRow (""))).selectable then sel
    else
      match rows.findIdx? (fun r => r.selectable) with
      | some i => i
      | none => sel

/-- The slice of session state the catalog aggregation touches (fields of Go
`model` and `modelCatalog` read or written by the `modelFetchMsg` case). -/
structure CatalogState where
  visible : Bool
  rows : List CatalogRow
  loading : List String
  selection : Nat
  messages : List String
deriving DecidableEq

/-- The message a finished provider fetch delivers to the session loop (Go:
`type modelFetchMsg`). -/
structure FetchMsg where
  provider : String
  models : List PModel
  err : Option String
deriving DecidableEq

/-- Go: `fetchModelsCmd`.  The provider's `ListModels` outcome (run under
its own 10s timeout) is turned into a message: an error is passed through,
a model list is filtered against the whitelist set before emission. -/
def fetchModelsMsg (pname : String) (whitelist : List String)
    (outcome : Except String (List PModel)) : FetchMsg :=
  match outcome with
  | Except.error e => { provider := pname, models := [], err := some e }
  | Except.ok ms => { provider := pname, models := filterModels ms whitelist, err := none }

/-- Go: the `modelFetchMsg` case of `model.Update`, translated clause by
clause: an error appends one error row (when the catalog is open) and a
status line; an empty model list appends one "no models match" row and a
status line; otherwise one selectable row and one status line per model in
order.  Each path that touched the rows clears the provider's loading flag
and re-normalizes the selection.  Rows are never removed or rewritten. -/
def applyModelFetch (m : CatalogState) (msg : FetchMsg) : CatalogState :=
  match msg.err with
  | some e =>
      let m1 :=
        if m.visible then
          let rows := m.rows ++ [errorRow msg.provider e]
          { m with rows := rows, loading := m.loading.filter (fun x => !(x == msg.provider)),
                   selection := ensureCatalogSelection rows m.selection }
        else m
      { m1 with messages := m1.messages ++ ["pfui: " ++ msg.provider ++ " error: " ++ e] }
  | none =>
      if msg.models.length = 0 then
        let m1 :=
          if m.visible then
            let rows := m.rows ++ [noMatchRow msg.provider]
            { m with rows := rows, loading := m.loading.filter (fun x => !(x == msg.provider)),
                     selection := ensureCatalogSelection rows m.selection }
          else m
        { m1 with messages :=
            m1.messages ++ [msg.provider ++ ": no models match the current whitelist"] }
      else
        let m1 :=
          if m.visible then { m with rows := m.rows ++ msg.models.map (modelRow msg.provider) }
          else m
        let m2 := { m1 with messages :=
            m1.messages ++ msg.models.map (modelDisplay msg.provider) }
        if m2.visible then
          { m2 with loading := m2.loading.filter (fun x => !(x == msg.provider)),
                    selection := ensureCatalogSelection m2.rows m2.selection }
        else m2

/-- The rows one fetch message contributes to an open catalog. -/
def fetchRows (msg : FetchMsg) : List CatalogRow :=
  match msg.err with
  | some e => [errorRow msg.provider e]
  | none =>
      if msg.models.length = 0 then [noMatchRow msg.provider]
      else msg.models.map (modelRow msg.provider)

/-- Go: `type blockRef struct { start, length int }` — a window into the
flat transcript line list identifying which lines a streaming block owns. -/
structure BlockRef where
  start : Nat
  length : Nat
deriving DecidableEq

/-- Go: `type streamingResponse struct` (the lipgloss style is presentation
markup, embedded as the identity on text and therefore dropped).  `sid` and
`origins` are ghost state: the identity of the provider stream this pending
response was begun for, and the identities of every stream whose chunk text
was accumulated into `buffer` — the source's `responseChunkMsg` carries no
stream identity, so the ghost tracks where applied text actually came
from. -/
structure StreamingResponse where
  title : String
  block : BlockRef
  buffer : String
  sid : Nat
  origins : List Nat
deriving DecidableEq

/-- The slice of the Bubble Tea `model` the response-stream logic reads and
writes.  `messages` is the flat transcript; `streamOpen` embeds
`responseStream != nil`; `providerSet`, `providerName` and `modelName` stand
for `activeProvider` and `defaultModel`.  `closedStreams` and
`finalizedOrigins` are ghost: the streams whose pending context has been
canceled by `finishResponseStream`, and the contributor sets of finalized
stream blocks in finalization order. -/
structure ChatState where
  messages : List String
  pendingResponse : Option StreamingResponse
  streamOpen : Bool
  providerSet : Bool
  providerName : String
  modelName : String
  closedStreams : List Nat
  finalizedOrigins : List (List Nat)
deriving DecidableEq

/-- Go: `providerLabel` (nil provider prints as `unknown-provider`). -/
def providerLabel (providerSet : Bool) (name : String) : String :=
  if providerSet then name else ("unknown-provider")

/-- Go: `defaultModelDisplay`. -/
def defaultModelDisplay (model : String) : String :=
  if model = "" then ("the provider default") else model

/-- The title `beginResponseStream` renders for the assistant block. -/
def streamTitle (m : ChatState) : String :=
  "pfui (" ++ providerLabel m.providerSet m.providerName ++ "/"
    ++ defaultModelDisplay m.modelName ++ ")"

/-- Splitting a character list at newline characters, keeping empty
pieces. -/
def splitNlChars : List Char → List Char → List (List Char)
  | [], acc => [acc.reverse]
  | c :: rest, acc =>
      if c = '\n' then acc.reverse :: splitNlChars rest []
      else splitNlChars rest (c :: acc)

/-- Go: `strings.Split(s, "\n")` (in character-list form so that it reduces
in the kernel; agrees with `String.splitOn` for the one-character
separator). -/
def splitLines (s : String) : List String :=
  (splitNlChars s.data []).map String.mk

/-- Go: `historyBlockLines`.  Body lines are folded on embedded newlines, a
box is drawn whose width is the widest of the title and the folded lines
(string length measured in characters where Go measures bytes — the texts
the claims depend on are unaffected), and each body line is padded to that
width. -/
def historyBlockLines (title : String) (body : List String) : List String :=
  let folded := body.flatMap splitLines
  let width := folded.foldl (fun w line => if w < line.length then line.length else w)
    title.length
  let border := String.mk (List.replicate (width + 2) '─')
  ("┌─ " ++ title)
    :: (folded.map (fun line =>
          "│ " ++ line ++ String.mk (List.replicate (width - line.length) ' ')))
    ++ ["└" ++ border]

/-- Go: `model.appendStyledHistoryBlockRef` — render the block, append its
lines to the transcript, and return the window they occupy. -/
def appendHistoryBlockRef (m : ChatState) (title : String) (body : List String) :
    BlockRef × ChatState :=
  let lines := historyBlockLines title body
  (⟨m.messages.length, lines.length⟩, { m with messages := m.messages ++ lines })

/-- Go: `model.replaceHistoryBlock` — splice the freshly rendered lines over
the block's current window (bounds clamped to the transcript length) and
return the updated window. -/
def replaceHistoryBlock (m : ChatState) (ref : BlockRef) (title : String)
    (body : List String) : BlockRef × ChatState :=
  let lines := historyBlockLines title body
  let start := min ref.start m.messages.length
  let stop := min (ref.start + ref.length) m.messages.length
  (⟨start, lines.length⟩,
   { m with messages := m.messages.take start ++ lines ++ m.messages.drop stop })

/-- Go: `model.finishResponseStream`.  The pending cancel function is
invoked (recorded in the `closedStreams` ghost), and the pending response
and open stream are dropped; the transcript is not touched.  The buffer's
contributor set is archived in the `finalizedOrigins` ghost. -/
def finishResponseStream (m : ChatState) : ChatState :=
  match m.pendingResponse with
  | none => { m with streamOpen := false }
  | some p =>
      { m with pendingResponse := none, streamOpen := false,
               closedStreams := m.closedStreams ++ [p.sid],
               finalizedOrigins := m.finalizedOrigins ++ [p.origins] }

/-- Go: `model.beginResponseStream` for stream `sid`.  No-op without an
active provider; otherwise any pending response is finalized first, a fresh
placeholder block is appended, the pending response is installed, and
`StreamChat` is attempted — on failure (`ok = false`) the fresh response is
finalized again and the error is printed, on success the stream is open and
the first chunk read is issued. -/
def beginResponseStream (sid : Nat) (ok : Bool) (errText : String) (m : ChatState) : ChatState :=
  if !m.providerSet then m
  else
    let m1 := if m.pendingResponse.isSome then finishResponseStream m else m
    let title := streamTitle m1
    let r := appendHistoryBlockRef m1 title ["…"]
    let pr : StreamingResponse :=
      { title := title, block := r.1, buffer := "", sid := sid, origins := [] }
    let m2 := { r.2 with pendingResponse := some pr }
    if !ok then
      let m3 := finishResponseStream m2
      { m3 with messages := m3.messages ++ ["pfui: " ++ errText] }
    else { m2 with streamOpen := true }

/-- Go: the `responseChunkMsg` case of `model.Update`.  With no pending
response the message is dropped whole.  An error chunk prints the error and
finalizes.  Chunk text is accumulated into the buffer and the block window
is re-rendered in place (the ghost records the chunk's originating stream
as a contributor).  A done chunk finalizes. -/
def applyResponseChunk (sid : Nat) (text : String) (isErr : Bool) (errText : String)
    (done : Bool) (m : ChatState) : ChatState :=
  match m.pendingResponse with
  | none => m
  | some p =>
      if isErr then
        finishResponseStream { m with messages := m.messages ++ ["pfui: " ++ errText] }
      else
        let m1 :=
          if !(text == "") then
            let p' := { p with buffer := p.buffer ++ text,
                               origins := if sid ∈ p.origins then p.origins
                                          else p.origins ++ [sid] }
            let r := replaceHistoryBlock m p'.block p'.title (splitLines p'.buffer)
            { r.2 with pendingResponse := some { p' with block := r.1 } }
          else m
        if done then finishResponseStream m1 else m1

/-- Go: the `esc` branch of `model.Update` when no foreground command is
active and a response is pending: finalize the stream (canceling its
context) and print the cancellation notice.  Without a pending response the
branch leaves the transcript and stream state alone. -/
def cancelResponseKey (m : ChatState) : ChatState :=
  if m.pendingResponse.isSome then
    let m1 := finishResponseStream m
    { m1 with messages := m1.messages ++ ["pfui: canceled response stream"] }
  else m

/-- One event the session loop serializes that touches the response-stream
state: beginning a stream (a submitted prompt), the delivery of one
`responseChunkMsg` (tagged by the ghost identity of the stream whose channel
produced it), or the Esc cancellation. -/
inductive ChatEv
  | begin (sid : Nat) (ok : Bool) (errText : String)
  | chunk (sid : Nat) (text : String) (isErr : Bool) (errText : String) (done : Bool)
  | cancelKey
deriving DecidableEq

/-- Effect of one serialized event on the chat state. -/
def chatStep (m : ChatState) (e : ChatEv) : ChatState :=
  match e with
  | ChatEv.begin sid ok errText => beginResponseStream sid ok errText m
  | ChatEv.chunk sid text isErr errText done => applyResponseChunk sid text isErr errText done m
  | ChatEv.cancelKey => cancelResponseKey m

/-- The chat state after a sequence of serialized events. -/
def chatTrace (m : ChatState) (evs : List ChatEv) : ChatState :=
  evs.foldl chatStep m

/-- A chat session with one configured provider and an empty transcript. -/
def initChat : ChatState :=
  { messages := [], pendingResponse := none, streamOpen := false, providerSet := true,
    providerName := "openai", modelName := "gpt-5.1-codex", closedStreams := [],
    finalizedOrigins := [] }

/-- Realizability of an event sequence: a chunk can only be delivered from a
stream that was begun earlier.  In the source a chunk read is in flight
whenever a stream is active, and a read outstanding when its stream is
superseded or canceled can still deliver one message afterwards, so chunks
of no-longer-active streams remain deliverable. -/
def chatEvsValid (begun : List Nat) : List ChatEv → Bool
  | [] => true
  | ChatEv.begin sid _ _ :: rest => chatEvsValid (begun ++ [sid]) rest
  | ChatEv.chunk sid _ _ _ _ :: rest => begun.contains sid && chatEvsValid begun rest
  | ChatEv.cancelKey :: rest => chatEvsValid begun rest

/-- An event sequence deliverable from a fresh session. -/
def ValidChatTrace (evs : List ChatEv) : Prop :=
  chatEvsValid [] evs = true

/-- No event of the sequence begins a new stream. -/
def noBegin (evs : List ChatEv) : Bool :=
  evs.all (fun e => match e with | ChatEv.begin _ _ _ => false | _ => true)

/-- Transcript prefix-stability bound: `k` lines of transcript exist and any
pending block starts at or after line `k`. -/
def PendOk (k : Nat) (m : ChatState) : Prop :=
  k ≤ m.messages.length ∧ ∀ p, m.pendingResponse = some p → k ≤ p.block.start

/-- A background job as the Go runtime lays it out for the aliasing
analysis of `ActiveJobs`: the `Args []string` field is a slice header whose
backing array lives in a shared store, `argsRef` being its address.
Copying the struct (`out = append(out, *job)`) copies the header, not the
array. -/
structure HJob where
  id : Nat
  command : String
  argsRef : Nat
  status : JobStatus
  exitCode : Int
  output : String
  error : String
deriving DecidableEq

/-- The executor's registry together with the store of slice backing
arrays. -/
structure HExec where
  jobs : List (Nat × HJob)
  store : List (List String)
deriving DecidableEq

/-- Dereference a job's `Args` slice in a given store. -/
def hArgs (store : List (List String)) (j : HJob) : List String :=
  store.getD j.argsRef []

/-- Go: `Executor.ActiveJobs` — one struct copy (`*job`) per registry entry,
in registry order.  Slice headers are copied by value; backing arrays are
not duplicated. -/
def ActiveJobs (e : HExec) : List HJob :=
  e.jobs.map Prod.snd

/-- Assignment `args[i] = v` through a slice header with address `ref`: the
backing array in the store is updated in place. -/
def writeArg (store : List (List String)) (ref i : Nat) (v : String) : List (List String) :=
  store.set ref ((store.getD ref []).set i v)

/-- A registry-side field mutation (the worker goroutine's terminal write):
the job record under `id` is replaced; the slice store is not touched. -/
def setHJob (e : HExec) (id : Nat) (f : HJob → HJob) : HExec :=
  { e with jobs := e.jobs.map (fun p => if p.1 = id then (p.1, f p.2) else p) }

/-! Concrete inputs used to instantiate the theorems below. -/

/-- An executor state with an active foreground command and one cancelable
background job (id 7). -/
def sampleExec : ExecutorState :=
  { foreground := true, jobs := [], cancels := [7], events := [], pending := [], nextUuid := 8 }

/-- A concrete background request. -/
def sampleBgReq : Request :=
  { command := "sleep", args := ["5"], workdir := "", background := true }

/-- The interaction starting one background job on a fresh executor. -/
def sampleOps : List ExecOp := [ExecOp.runReq sampleBgReq 0]

/-- The job record `sampleOps` registers. -/
def sampleJob : Job :=
  { id := 0, command := "sleep", args := ["5"], startedAt := 0, endedAt := 0,
    status := JobStatus.running, exitCode := 0, output := "", error := "" }

/-- An executor state whose event buffer is full. -/
def sampleFullExec : ExecutorState :=
  { foreground := false, jobs := [], cancels := [], events := List.replicate 32 (Event.mk sampleJob),
    pending := [], nextUuid := 1 }

/-- A registry job whose `Args` backing array lives at store address 0. -/
def sampleHJob : HJob :=
  { id := 0, command := "echo", argsRef := 0, status := JobStatus.running,
    exitCode := 0, output := "", error := "" }

/-- An executor heap with one registered job and its one-element `Args`
backing array `["x"]`. -/
def sampleHExec : HExec :=
  { jobs := [(0, sampleHJob)], store := [["x"]] }

/-- Two models a provider could advertise. -/
def sampleModelA : PModel :=
  { name := "m1", description := "", capabilities := ["chat"], tags := [] }

def sampleModelB : PModel :=
  { name := "m2", description := "", capabilities := [], tags := [("family", "gpt")] }

/-- An open, empty model catalog waiting on two providers. -/
def sampleCat : CatalogState :=
  { visible := true, rows := [], loading := ["p1", "p2"], selection := 0, messages := [] }

/-- The message provider `p1` delivers after a successful unfiltered
fetch of two models. -/
def sampleMsgOk : FetchMsg :=
  fetchModelsMsg ("p1") [] (Except.ok [sampleModelA, sampleModelB])

/-- The message provider `p2` delivers after a timeout. -/
def sampleMsgErr : FetchMsg :=
  { provider := "p2", models := [], err := some ("timeout") }

/-- A realizable event sequence in which stream 0 is begun and receives one
chunk, stream 1 supersedes it, and a chunk of stream 0 still in flight at
the supersession is delivered while stream 1 is pending, followed by a
chunk of stream 1 and the final cancel. -/
def cexMixTrace : List ChatEv :=
  [ChatEv.begin 0 true (""), ChatEv.chunk 0 ("a") false ("") false, ChatEv.begin 1 true (""),
   ChatEv.chunk 0 ("x") false ("") false, ChatEv.chunk 1 ("b") false ("") false,
   ChatEv.cancelKey]

/-- A realizable event sequence: stream 0 begun, one chunk, Esc cancel,
then stream 1 begun.  A chunk of stream 0 delivered after this prefix is
the in-flight read outstanding at cancellation. -/
def cexCancelTrace : List ChatEv :=
  [ChatEv.begin 0 true (""), ChatEv.chunk 0 ("a") false ("") false, ChatEv.cancelKey,
   ChatEv.begin 1 true ("")]

/-- The chat state after stream 0 was begun and received one chunk. -/
def sampleChat : ChatState :=
  chatTrace initChat [ChatEv.begin 0 true (""), ChatEv.chunk 0 ("a") false ("") false]

/-- The pending response of `sampleChat`. -/
def sampleChatPending : StreamingResponse :=
  { title := "pfui (openai/gpt-5.1-codex)", block := { start := 0, length := 3 },
    buffer := "a", sid := 0, origins := [0] }

/-- The fresh pending response a successful `beginResponseStream` on state
`m` installs for stream `sid`: the placeholder block appended at the end of
the transcript, empty buffer, no contributors. -/
def freshPending (m : ChatState) (sid : Nat) : StreamingResponse :=
  { title := streamTitle m,
    block := { start := m.messages.length,
               length := (historyBlockLines (streamTitle m) ["…"]).length },
    buffer := "", sid := sid, origins := [] }

/-! Helper lemmas about the registry association list. -/

theorem jlookup_append_of_some {id : Nat} {l₁ l₂ : List (Nat × Job)} {j : Job}
    (h : jlookup id l₁ = some j) : jlookup id (l₁ ++ l₂) = some j := by
  induction l₁ with
  | nil => simp [jlookup] at h
  | cons p rest ih =>
      by_cases hp : p.1 = id
      · simp [jlookup, hp] at h ⊢; exact h
      · simp [jlookup, hp] at h ⊢; exact ih h

theorem jlookup_append_of_none {id : Nat} {l₁ l₂ : List (Nat × Job)}
    (h : jlookup id l₁ = none) : jlookup id (l₁ ++ l₂) = jlookup id l₂ := by
  induction l₁ with
  | nil => simp [jlookup]
  | cons p rest ih =>
      by_cases hp : p.1 = id
      · simp [jlookup, hp] at h
      · simp [jlookup, hp] at h ⊢; exact ih h

theorem jlookup_none_of_not_mem {id : Nat} {l : List (Nat × Job)}
    (h : id ∉ l.map Prod.fst) : jlookup id l = none := by
  induction l with
  | nil => rfl
  | cons p rest ih =>
      have hp : p.1 ≠ id := by
        intro he
        exact h (by simp [← he])
      have hrest : id ∉ rest.map Prod.fst := by
        intro hm
        exact h (by simp [hm])
      simp [jlookup, hp, ih hrest]

theorem jlookup_mem {id : Nat} {l : List (Nat × Job)} {j : Job}
    (h : jlookup id l = some j) : (id, j) ∈ l := by
  induction l with
  | nil => simp [jlookup] at h
  | cons p rest ih =>
      by_cases hp : p.1 = id
      · have hv : p.2 = j := by simpa [jlookup, hp] using h
        have hpe : p = (id, j) := by
          cases p
          simp_all
        exact List.mem_cons.2 (Or.inl hpe.symm)
      · simp only [jlookup, if_neg hp] at h
        exact List.mem_cons_of_mem _ (ih h)

theorem jlookup_isSome_of_mem_keys {id : Nat} {l : List (Nat × Job)}
    (h : id ∈ l.map Prod.fst) : (jlookup id l).isSome := by
  induction l with
  | nil => simp at h
  | cons p rest ih =>
      by_cases hp : p.1 = id
      · simp [jlookup, hp]
      · simp only [List.map_cons, List.mem_cons] at h
        rcases h with h | h
        · exact absurd h.symm hp
        · simp only [jlookup, if_neg hp]
          exact ih h

theorem setJob_map_fst (id : Nat) (j : Job) (l : List (Nat × Job)) :
    (setJob id j l).map Prod.fst = l.map Prod.fst := by
  induction l with
  | nil => rfl
  | cons p rest ih =>
      by_cases hp : p.1 = id
      · simp only [setJob, List.map_cons] at ih ⊢
        rw [if_pos hp]
        simp [ih, hp]
      · simp only [setJob, List.map_cons] at ih ⊢
        rw [if_neg hp]
        simp [ih]

theorem mem_setJob {id : Nat} {j : Job} {l : List (Nat × Job)} {p : Nat × Job}
    (h : p ∈ setJob id j l) : p = (id, j) ∨ (p ∈ l ∧ p.1 ≠ id) := by
  unfold setJob at h
  obtain ⟨q, hq, hfq⟩ := List.mem_map.1 h
  by_cases hqid : q.1 = id
  · rw [if_pos hqid] at hfq
    exact Or.inl hfq.symm
  · rw [if_neg hqid] at hfq
    exact Or.inr ⟨hfq ▸ hq, hfq ▸ hqid⟩

theorem jlookup_setJob_self {id : Nat} {l : List (Nat × Job)} {j0 : Job} (j : Job)
    (h : jlookup id l = some j0) : jlookup id (setJob id j l) = some j := by
  induction l with
  | nil => simp [jlookup] at h
  | cons p rest ih =>
      by_cases hp : p.1 = id
      · simp [setJob, jlookup, hp]
      · have h' : jlookup id rest = some j0 := by simpa [jlookup, hp] using h
        simpa [setJob, jlookup, hp] using ih h'

theorem jlookup_setJob_ne {id id' : Nat} (l : List (Nat × Job)) (j : Job)
    (h : id' ≠ id) : jlookup id' (setJob id j l) = jlookup id' l := by
  induction l with
  | nil => rfl
  | cons p rest ih =>
      by_cases hp : p.1 = id
      · have hp' : p.1 ≠ id' := by rw [hp]; exact Ne.symm h
        simp only [setJob, List.map_cons, jlookup, if_pos hp]
        rw [if_neg (by simpa using Ne.symm h), if_neg hp']
        exact ih
      · by_cases hp' : p.1 = id'
        · simp only [setJob, List.map_cons, jlookup, if_neg hp]
          rw [if_pos hp', if_pos hp']
        · simp only [setJob, List.map_cons, jlookup, if_neg hp]
          rw [if_neg hp', if_neg hp']
          exact ih

/-! The executor bookkeeping invariant holds initially and is preserved by
every interaction. -/

theorem execInv_init : ExecInv NewExecutor := by
  simp [ExecInv, NewExecutor]

theorem execInv_emit {s : ExecutorState} (j : Job) (h : ExecInv s) : ExecInv (emit j s) := by
  obtain ⟨h1, h2, h3, h4, h5, h6, h7, h8⟩ := h
  unfold emit
  split
  · rename_i hlen
    refine ⟨h1, h2, h3, h4, h5, h6, h7, ?_⟩
    simp only [List.length_append, List.length_singleton]
    omega
  · exact ⟨h1, h2, h3, h4, h5, h6, h7, h8⟩

theorem execInv_startBackground {s : ExecutorState} (req : Request) (now : Nat)
    (h : ExecInv s) : ExecInv (startBackground req now s).2 := by
  obtain ⟨h1, h2, h3, h4, h5, h6, h7, h8⟩ := h
  unfold startBackground
  refine execInv_emit _ ⟨?_, ?_, ?_, ?_, ?_, ?_, ?_, h8⟩
  · rw [List.map_append, List.nodup_append]
    refine ⟨h1, List.nodup_singleton _, ?_⟩
    intro a ha hb
    simp only [List.map_cons, List.map_nil, List.mem_singleton] at hb
    subst hb
    obtain ⟨p, hp, hfst⟩ := List.mem_map.1 ha
    have := h2 _ hp
    rw [hfst] at this
    exact Nat.lt_irrefl _ this
  · intro p hp
    rcases List.mem_append.1 hp with hp | hp
    · exact Nat.lt_succ_of_lt (h2 _ hp)
    · simp only [List.mem_singleton] at hp
      subst hp
      exact Nat.lt_succ_self _
  · rw [List.nodup_append]
    refine ⟨h3, List.nodup_singleton _, ?_⟩
    intro a ha hb
    simp only [List.mem_singleton] at hb
    subst hb
    exact Nat.lt_irrefl _ (h4 _ ha)
  · intro i hi
    rcases List.mem_append.1 hi with hi | hi
    · exact Nat.lt_succ_of_lt (h4 _ hi)
    · simp only [List.mem_singleton] at hi
      subst hi
      exact Nat.lt_succ_self _
  · rw [List.nodup_append]
    refine ⟨h5, List.nodup_singleton _, ?_⟩
    intro a ha hb
    simp only [List.mem_singleton] at hb
    subst hb
    exact Nat.lt_irrefl _ (h6 _ ha)
  · intro i hi
    rcases List.mem_append.1 hi with hi | hi
    · exact Nat.lt_succ_of_lt (h6 _ hi)
    · simp only [List.mem_singleton] at hi
      subst hi
      exact Nat.lt_succ_self _
  · intro p hp hst
    rcases List.mem_append.1 hp with hp | hp
    · intro hmem
      rcases List.mem_append.1 hmem with hmem | hmem
      · exact h7 _ hp hst hmem
      · simp only [List.mem_singleton] at hmem
        have := h2 _ hp
        omega
    · simp only [List.mem_singleton] at hp
      subst hp
      exact absurd rfl hst

theorem execInv_completeBackground {s : ExecutorState} (id : Nat) (res : CmdResult)
    (now : Nat) (h : ExecInv s) : ExecInv (completeBackground id res now s) := by
  have hinv := h
  obtain ⟨h1, h2, h3, h4, h5, h6, h7, h8⟩ := h
  unfold completeBackground
  split
  · exact hinv
  · rename_i j hj
    split
    · rename_i hid
      refine execInv_emit _ ⟨?_, ?_, ?_, ?_, ?_, ?_, ?_, h8⟩
      · rw [setJob_map_fst]
        exact h1
      · intro p hp
        rcases mem_setJob hp with hp' | hp'
        · subst hp'
          have hm : (id, j) ∈ s.jobs := jlookup_mem hj
          have hlt : id < s.nextUuid := h2 _ hm
          exact hlt
        · exact h2 _ hp'.1
      · exact h3.erase _
      · intro i hi
        exact h4 _ (List.erase_subset _ _ hi)
      · exact h5.erase _
      · intro i hi
        exact h6 _ (List.erase_subset _ _ hi)
      · intro p hp hst
        rcases mem_setJob hp with hp' | hp'
        · subst hp'
          intro hmem
          exact (h5.mem_erase_iff.1 hmem).1 rfl
        · intro hmem
          exact h7 _ hp'.1 hst (List.erase_subset _ _ hmem)
    · exact hinv

theorem execInv_step {s : ExecutorState} (op : ExecOp) (h : ExecInv s) :
    ExecInv (execStep s op) := by
  cases op with
  | runReq req now =>
      by_cases hc : req.command = ""
      · simp only [execStep, if_pos hc]
        exact h
      · by_cases hb : req.background = true
        · simp only [execStep, if_neg hc, if_pos hb]
          exact execInv_startBackground req now h
        · simp only [execStep, if_neg hc, if_neg hb]
          exact h
  | fgDone => exact h
  | complete id res now => exact execInv_completeBackground id res now h
  | cancelFg =>
      simp only [execStep, CancelForeground]
      split
      · exact h
      · exact h
  | cancelJob id =>
      simp only [execStep, CancelJob]
      split
      · obtain ⟨h1, h2, h3, h4, h5, h6, h7, h8⟩ := h
        exact ⟨h1, h2, h3.erase _, fun i hi => h4 _ (List.erase_subset _ _ hi), h5, h6,
          fun p hp hst => h7 _ hp hst, h8⟩
      · exact h
  | drain =>
      obtain ⟨h1, h2, h3, h4, h5, h6, h7, h8⟩ := h
      refine ⟨h1, h2, h3, h4, h5, h6, h7, ?_⟩
      have ht : s.events.tail.length ≤ s.events.length := by
        cases s.events <;> simp
      exact le_trans ht h8

theorem execInv_trace (ops : List ExecOp) : ExecInv (execTrace ops) := by
  have main : ∀ (l : List ExecOp) (s : ExecutorState), ExecInv s → ExecInv (l.foldl execStep s) := by
    intro l
    induction l with
    | nil => intro s hs; exact hs
    | cons op rest ih =>
        intro s hs
        exact ih _ (execInv_step op hs)
  exact main ops NewExecutor execInv_init

/-! Small frame lemmas: which state components each operation leaves
untouched. -/

theorem emit_jobs (j : Job) (s : ExecutorState) : (emit j s).jobs = s.jobs := by
  unfold emit
  split <;> rfl

theorem emit_pending (j : Job) (s : ExecutorState) : (emit j s).pending = s.pending := by
  unfold emit
  split <;> rfl

theorem cancelForeground_jobs (s : ExecutorState) : ((CancelForeground s).2).jobs = s.jobs := by
  unfold CancelForeground
  split <;> rfl

theorem cancelJob_jobs (id : Nat) (s : ExecutorState) : ((CancelJob id s).2).jobs = s.jobs := by
  unfold CancelJob
  split <;> rfl

theorem completeBackground_none {s : ExecutorState} {id : Nat} (res : CmdResult) (now : Nat)
    (hj : jlookup id s.jobs = none) : completeBackground id res now s = s := by
  unfold completeBackground
  rw [hj]

theorem completeBackground_found {s : ExecutorState} {id : Nat} {j : Job}
    (res : CmdResult) (now : Nat) (hj : jlookup id s.jobs = some j) (hid : id ∈ s.pending) :
    completeBackground id res now s
      = emit (finishJob res now j)
          { s with jobs := setJob id (finishJob res now j) s.jobs,
                   cancels := s.cancels.erase id, pending := s.pending.erase id } := by
  unfold completeBackground
  rw [hj]
  dsimp only
  rw [if_pos hid]

theorem completeBackground_not_pending {s : ExecutorState} {id : Nat} {j : Job}
    (res : CmdResult) (now : Nat) (hj : jlookup id s.jobs = some j) (hid : id ∉ s.pending) :
    completeBackground id res now s = s := by
  unfold completeBackground
  rw [hj]
  dsimp only
  rw [if_neg hid]

/-- C9: a `Run` request whose command is the empty string, in either
foreground or background mode, returns the input error, creates no job,
returns no job id, and leaves the executor state — foreground slot, job
registry, cancel set, pending set, event buffer, uuid counter — exactly
unchanged. -/
theorem c9_empty_command_rejected (req : Request) (fgOutcome : CmdResult) (now : Nat)
    (s : ExecutorState) (h : req.command = "") :
    Run req fgOutcome now s = (RunReturn.inputError ("command is required"), s) := by
  simp [Run, h]

/-- Witness for C9: concrete empty-command requests in background and
foreground mode. -/
theorem c9_empty_command_rejected_witness :
    Run ({ command := "", args := [], workdir := "", background := true })
        ({ output := "", err := none }) 0 NewExecutor
      = (RunReturn.inputError ("command is required"), NewExecutor) ∧
    Run ({ command := "", args := ["x"], workdir := "/tmp", background := false })
        ({ output := "", err := none }) 0 NewExecutor
      = (RunReturn.inputError ("command is required"), NewExecutor) :=
  ⟨c9_empty_command_rejected _ _ _ _ rfl, c9_empty_command_rejected _ _ _ _ rfl⟩

/-- C4: cancellation is idempotent per target.  `CancelForeground` reports
success exactly when the slot is occupied, and a second consecutive call
always reports `false`; with a duplicate-free cancel set (an invariant of
every reachable state, last conjunct), two consecutive `CancelJob` calls on
the same id report `true` then `false`, and `CancelJob` on an unknown id
reports `false` and changes nothing. -/
theorem c4_cancellation_idempotent :
    (∀ s : ExecutorState, (CancelForeground s).1 = s.foreground) ∧
    (∀ s : ExecutorState, (CancelForeground (CancelForeground s).2).1 = false) ∧
    (∀ (s : ExecutorState) (id : Nat), s.cancels.Nodup → id ∈ s.cancels →
        (CancelJob id s).1 = true ∧ (CancelJob id (CancelJob id s).2).1 = false) ∧
    (∀ (s : ExecutorState) (id : Nat), id ∉ s.cancels →
        (CancelJob id s).1 = false ∧ (CancelJob id s).2 = s) ∧
    (∀ ops : List ExecOp, (execTrace ops).cancels.Nodup) := by
  refine ⟨?_, ?_, ?_, ?_, ?_⟩
  · intro s
    unfold CancelForeground
    by_cases h : s.foreground <;> simp [h]
  · intro s
    unfold CancelForeground
    by_cases h : s.foreground <;> simp [h]
  · intro s id hnd hmem
    refine ⟨by simp [CancelJob, hmem], ?_⟩
    have h2 : id ∉ ((CancelJob id s).2).cancels := by
      simp only [CancelJob, if_pos hmem]
      intro hmem'
      exact (hnd.mem_erase_iff.1 hmem').1 rfl
    obtain ⟨t, ht⟩ : ∃ t, (CancelJob id s).2 = t := ⟨_, rfl⟩
    rw [ht] at h2 ⊢
    simp [CancelJob, h2]
  · intro s id hmem
    simp [CancelJob, hmem]
  · intro ops
    exact (execInv_trace ops).2.2.1

/-- Witness for C4: the concrete state `sampleExec` (occupied foreground
slot, cancel set `[7]`). -/
theorem c4_cancellation_idempotent_witness :
    (CancelForeground sampleExec).1 = sampleExec.foreground ∧
    (CancelForeground (CancelForeground sampleExec).2).1 = false ∧
    ((CancelJob 7 sampleExec).1 = true ∧ (CancelJob 7 (CancelJob 7 sampleExec).2).1 = false) ∧
    ((CancelJob 9 sampleExec).1 = false ∧ (CancelJob 9 sampleExec).2 = sampleExec) ∧
    (execTrace sampleOps).cancels.Nodup :=
  ⟨c4_cancellation_idempotent.1 sampleExec,
   c4_cancellation_idempotent.2.1 sampleExec,
   c4_cancellation_idempotent.2.2.1 sampleExec 7 (by decide) (by decide),
   c4_cancellation_idempotent.2.2.2.1 sampleExec 9 (by decide),
   c4_cancellation_idempotent.2.2.2.2 sampleOps⟩

/-- C6: the lifecycle event channel has fixed capacity 32 and publication
never blocks: with room the event is appended and nothing else changes,
with a full buffer the event is silently dropped and the whole state is
unchanged; no reachable state holds more than 32 buffered events. -/
theorem c6_event_buffer (s : ExecutorState) (j : Job) (ops : List ExecOp) :
    (s.events.length < 32 → emit j s = { s with events := s.events ++ [Event.mk j] }) ∧
    (32 ≤ s.events.length → emit j s = s) ∧
    (execTrace ops).events.length ≤ 32 := by
  refine ⟨?_, ?_, ?_⟩
  · intro h
    simp [emit, h]
  · intro h
    simp [emit, Nat.not_lt.2 h]
  · exact (execInv_trace ops).2.2.2.2.2.2.2

/-- Witness for C6: a fresh executor appends, the full buffer
`sampleFullExec` drops. -/
theorem c6_event_buffer_witness :
    emit sampleJob NewExecutor = { NewExecutor with events := [Event.mk sampleJob] } ∧
    emit sampleJob sampleFullExec = sampleFullExec ∧
    (execTrace sampleOps).events.length ≤ 32 :=
  ⟨(c6_event_buffer NewExecutor sampleJob []).1 (by decide),
   (c6_event_buffer sampleFullExec sampleJob []).2.1 (by decide),
   (c6_event_buffer NewExecutor sampleJob sampleOps).2.2⟩

/-- C1 as stated fails on the code: a foreground run whose process spawned
and exited 1 does return the combined output and the exit code as data, but
`Run` also returns the non-nil `*exec.ExitError` from `cmd.Run` — not "no
executor-level error" with an error reserved for spawn failures. -/
theorem c1_counterexample :
    (Run ({ command := "false", args := [], workdir := "", background := false })
        ({ output := "", err := some (CmdError.exitError 1 ("exit status 1")) }) 0 NewExecutor).1
      = RunReturn.finished ({ output := "", exitCode := 1 })
          (some (CmdError.exitError 1 ("exit status 1"))) ∧
    (1 : Int) ≠ 0 ∧
    some (CmdError.exitError 1 ("exit status 1")) ≠ (none : Option CmdError) :=
  ⟨rfl, by decide, by decide⟩

/-- C1 amended: every foreground `Run` with a non-empty command returns the
combined output and computed exit code as data in `Result` together with
the `cmd.Run` error itself; the exit code is the `ExitError` code for a
nonzero exit and -1 for a spawn failure, 0 on success, so the caller can
distinguish a nonzero exit (`exitError`) from a spawn failure
(`otherError`) by the error's type or the recorded exit code. -/
theorem c1_foreground_exit_data (req : Request) (outcome : CmdResult) (now : Nat)
    (s : ExecutorState) (hc : ¬req.command = "") (hb : req.background = false) :
    (Run req outcome now s).1
      = RunReturn.finished
          ({ output := outcome.output, exitCode := exitCodeOfErr outcome.err }) outcome.err ∧
    (Run req outcome now s).2 = { s with foreground := false } ∧
    (outcome.err = none → exitCodeOfErr outcome.err = 0) ∧
    (∀ code msg, outcome.err = some (CmdError.exitError code msg) →
        exitCodeOfErr outcome.err = code) ∧
    (∀ msg, outcome.err = some (CmdError.otherError msg) →
        exitCodeOfErr outcome.err = -1) := by
  refine ⟨?_, ?_, ?_, ?_, ?_⟩
  · simp [Run, hc, hb, runForeground]
  · simp [Run, hc, hb, runForeground]
  · intro h
    simp [exitCodeOfErr, h]
  · intro code msg h
    simp [exitCodeOfErr, h]
  · intro msg h
    simp [exitCodeOfErr, h]

/-- Witness for C1 (amended): a concrete nonzero exit and a concrete spawn
failure. -/
theorem c1_foreground_exit_data_witness :
    (Run ({ command := "false", args := [], workdir := "", background := false })
        ({ output := "boom", err := some (CmdError.exitError 2 ("exit status 2")) }) 0 NewExecutor).1
      = RunReturn.finished ({ output := "boom", exitCode := 2 })
          (some (CmdError.exitError 2 ("exit status 2"))) ∧
    (Run ({ command := "nosuch", args := [], workdir := "", background := false })
        ({ output := "", err := some (CmdError.otherError ("exec: not found")) }) 0 NewExecutor).1
      = RunReturn.finished ({ output := "", exitCode := -1 })
          (some (CmdError.otherError ("exec: not found"))) := by
  constructor
  · have h := c1_foreground_exit_data
      ({ command := "false", args := [], workdir := "", background := false })
      ({ output := "boom", err := some (CmdError.exitError 2 ("exit status 2")) }) 0 NewExecutor
      (by decide) rfl
    rw [h.1]
    have h2 := h.2.2.2.1 2 ("exit status 2") rfl
    rw [h2]
  · have h := c1_foreground_exit_data
      ({ command := "nosuch", args := [], workdir := "", background := false })
      ({ output := "", err := some (CmdError.otherError ("exec: not found")) }) 0 NewExecutor
      (by decide) rfl
    rw [h.1]
    have h2 := h.2.2.2.2 ("exec: not found") rfl
    rw [h2]

/-- C7: registry integrity in every reachable executor state.  Job ids are
pairwise distinct and a fresh background start never reuses one; a
registered job with an outstanding completion is still `Running`, and the
worker's completion applies exactly the terminal transition to that one job
(`finishJob`) while every other job's registry entry is untouched; the
terminal transition is Running→Success with exit code 0 or Running→Failed
with the error message recorded; and a job in a terminal state is never
mutated again by any operation. -/
theorem c7_registry_integrity (ops : List ExecOp) :
    ((execTrace ops).jobs.map Prod.fst).Nodup ∧
    (∀ (req : Request) (now : Nat),
        (startBackground req now (execTrace ops)).1 ∉ (execTrace ops).jobs.map Prod.fst) ∧
    (∀ (id : Nat) (res : CmdResult) (now : Nat) (j : Job),
        jlookup id (execTrace ops).jobs = some j → id ∈ (execTrace ops).pending →
        j.status = JobStatus.running ∧
        jlookup id (execStep (execTrace ops) (ExecOp.complete id res now)).jobs
          = some (finishJob res now j) ∧
        (∀ id' : Nat, id' ≠ id →
            jlookup id' (execStep (execTrace ops) (ExecOp.complete id res now)).jobs
              = jlookup id' (execTrace ops).jobs)) ∧
    (∀ (res : CmdResult) (now : Nat) (j : Job),
        (res.err = none →
            finishJob res now j
              = { j with output := res.output, endedAt := now,
                         status := JobStatus.success, exitCode := 0 }) ∧
        (∀ e, res.err = some e → (finishJob res now j).status = JobStatus.failed ∧
            (finishJob res now j).error = e.message)) ∧
    (∀ (id : Nat) (j : Job) (op : ExecOp),
        jlookup id (execTrace ops).jobs = some j → j.status ≠ JobStatus.running →
        jlookup id (execStep (execTrace ops) op).jobs = some j) := by
  obtain ⟨h1, h2, h3, h4, h5, h6, h7, h8⟩ := execInv_trace ops
  refine ⟨h1, ?_, ?_, ?_, ?_⟩
  · intro req now hmem
    have he : (startBackground req now (execTrace ops)).1 = (execTrace ops).nextUuid := rfl
    rw [he] at hmem
    obtain ⟨p, hp, hfst⟩ := List.mem_map.1 hmem
    have hlt := h2 _ hp
    rw [hfst] at hlt
    exact Nat.lt_irrefl _ hlt
  · intro id res now j hj hid
    have hrun : j.status = JobStatus.running := by
      by_contra hne
      exact h7 _ (jlookup_mem hj) hne hid
    have hstep : execStep (execTrace ops) (ExecOp.complete id res now)
        = completeBackground id res now (execTrace ops) := rfl
    refine ⟨hrun, ?_, ?_⟩
    · rw [hstep, completeBackground_found res now hj hid, emit_jobs]
      exact jlookup_setJob_self _ hj
    · intro id' hne
      rw [hstep, completeBackground_found res now hj hid, emit_jobs]
      exact jlookup_setJob_ne _ _ hne
  · intro res now j
    constructor
    · intro h
      simp [finishJob, h]
    · intro e h
      cases e with
      | exitError code msg => simp [finishJob, h, CmdError.message]
      | otherError msg => simp [finishJob, h, CmdError.message]
  · intro id j op hj hst
    have hnp : id ∉ (execTrace ops).pending := h7 _ (jlookup_mem hj) hst
    cases op with
    | runReq req now =>
        by_cases hc : req.command = ""
        · simpa [execStep, hc] using hj
        · by_cases hb : req.background = true
          · have hstep : execStep (execTrace ops) (ExecOp.runReq req now)
                = (startBackground req now (execTrace ops)).2 := by
              simp [execStep, hc, hb]
            rw [hstep]
            unfold startBackground
            dsimp only
            rw [emit_jobs]
            exact jlookup_append_of_some hj
          · simpa [execStep, hc, hb] using hj
    | fgDone => exact hj
    | complete id2 res now =>
        have hstep : execStep (execTrace ops) (ExecOp.complete id2 res now)
            = completeBackground id2 res now (execTrace ops) := rfl
        rw [hstep]
        cases hjl : jlookup id2 (execTrace ops).jobs with
        | none =>
            rw [completeBackground_none res now hjl]
            exact hj
        | some j2 =>
            by_cases hid2 : id2 ∈ (execTrace ops).pending
            · have hne : id2 ≠ id := by
                intro he
                subst he
                exact hnp hid2
              rw [completeBackground_found res now hjl hid2, emit_jobs,
                jlookup_setJob_ne _ _ (Ne.symm hne)]
              exact hj
            · rw [completeBackground_not_pending res now hjl hid2]
              exact hj
    | cancelFg =>
        show jlookup id ((CancelForeground (execTrace ops)).2).jobs = some j
        rw [cancelForeground_jobs]
        exact hj
    | cancelJob id2 =>
        show jlookup id ((CancelJob id2 (execTrace ops)).2).jobs = some j
        rw [cancelJob_jobs]
        exact hj
    | drain => exact hj

/-- Witness for C7: one background job started on a fresh executor, then
completed successfully; the integrity properties hold at the concrete
state. -/
theorem c7_registry_integrity_witness :
    ((execTrace sampleOps).jobs.map Prod.fst).Nodup ∧
    (startBackground sampleBgReq 4 (execTrace sampleOps)).1
      ∉ (execTrace sampleOps).jobs.map Prod.fst ∧
    jlookup 0 (execStep (execTrace sampleOps)
        (ExecOp.complete 0 ({ output := "done", err := none }) 3)).jobs
      = some (finishJob ({ output := "done", err := none }) 3 sampleJob) ∧
    (finishJob ({ output := "done", err := none }) 3 sampleJob).status = JobStatus.success := by
  have h := c7_registry_integrity sampleOps
  refine ⟨h.1, h.2.1 sampleBgReq 4, ?_, by decide⟩
  exact (h.2.2.1 0 ({ output := "done", err := none }) 3 sampleJob (by decide) (by decide)).2.1

/-- C8 as stated fails on the code: `ActiveJobs` copies each `Job` struct by
value (`out = append(out, *job)`), but `Args` is a slice whose backing array
is shared between the copy and the registry, so mutating an element of a
snapshot job's `Args` changes the executor registry's job as well — the
snapshot is shallow, not a deep copy. -/
theorem c8_counterexample :
    ActiveJobs sampleHExec = [sampleHJob] ∧
    sampleHExec.jobs = [(0, sampleHJob)] ∧
    hArgs sampleHExec.store sampleHJob = ["x"] ∧
    hArgs (writeArg sampleHExec.store sampleHJob.argsRef 0 ("y")) sampleHJob = ["y"] ∧
    (["y"] : List String) ≠ ["x"] :=
  ⟨rfl, rfl, rfl, rfl, by decide⟩

/-- C8 amended: `ActiveJobs` returns a point-in-time snapshot of all known
jobs in which each `Job` struct is a value copy — the snapshot holds the
registry's records as of copy time, and a later registry field mutation does
not touch the slice store, hence not a previously returned snapshot's
`Args` view either — but the copy is shallow: the `Args` slice header
shares its backing array, so an element write through a snapshot job's
`Args` is the registry job's `Args` changing. -/
theorem c8_snapshot_shallow (e : HExec) (id i : Nat) (j : HJob) (v : String) (f : HJob → HJob)
    (hj : (id, j) ∈ e.jobs) (href : j.argsRef < e.store.length)
    (hi : i < (hArgs e.store j).length) (hv : v ≠ (hArgs e.store j).getD i ("")) :
    j ∈ ActiveJobs e ∧
    (setHJob e id f).store = e.store ∧
    hArgs (writeArg e.store j.argsRef i v) j = (hArgs e.store j).set i v ∧
    hArgs (writeArg e.store j.argsRef i v) j ≠ hArgs e.store j := by
  have hrow : e.store[j.argsRef]? = some (e.store[j.argsRef]) := List.getElem?_eq_getElem href
  have hget : hArgs (writeArg e.store j.argsRef i v) j = (hArgs e.store j).set i v := by
    unfold hArgs writeArg
    simp [List.getD_eq_getElem?_getD, List.getElem?_set_self', hrow]
  refine ⟨List.mem_map.2 ⟨(id, j), hj, rfl⟩, rfl, hget, ?_⟩
  rw [hget]
  intro heq
  have hgd := congrArg (fun l => l.getD i ("")) heq
  simp only [List.getD_eq_getElem?_getD] at hgd
  have hl : (hArgs e.store j)[i]? = some ((hArgs e.store j)[i]) := List.getElem?_eq_getElem hi
  rw [List.getElem?_set_self', hl] at hgd
  simp at hgd
  apply hv
  rw [List.getD_eq_getElem?_getD, hl]
  simpa using hgd

/-- Witness for C8 (amended) at the concrete one-job heap. -/
theorem c8_snapshot_shallow_witness :
    sampleHJob ∈ ActiveJobs sampleHExec ∧
    (setHJob sampleHExec 0 (fun j => { j with status := JobStatus.success })).store
      = sampleHExec.store ∧
    hArgs (writeArg sampleHExec.store sampleHJob.argsRef 0 ("y")) sampleHJob
      = (hArgs sampleHExec.store sampleHJob).set 0 ("y") ∧
    hArgs (writeArg sampleHExec.store sampleHJob.argsRef 0 ("y")) sampleHJob
      ≠ hArgs sampleHExec.store sampleHJob :=
  c8_snapshot_shallow sampleHExec 0 0 sampleHJob ("y")
    (fun j => { j with status := JobStatus.success })
    (by decide) (by decide) (by decide) (by decide)

/-- C10: the effective whitelist for a provider's fetch is chosen by fixed
precedence — the non-empty entry under the lowercased provider name if
present, else the non-empty entry under the lowercased provider kind, else
the global whitelist, with a nil provider or absent per-provider map going
straight to the global list — and `filterModels` returns exactly the input
models, in input order, whose `Name` is in the whitelist set, an empty set
passing every model through unchanged. -/
theorem c10_whitelist_precedence :
    (∀ (g : List String) (m : List (String × List String)) (pr : ProviderRec) (l : List String),
        wlookup (strToLower pr.name) m = some l → l ≠ [] →
        providerWhitelist g (some m) (some pr) = l) ∧
    (∀ (g : List String) (m : List (String × List String)) (pr : ProviderRec) (l : List String),
        (∀ l0, wlookup (strToLower pr.name) m = some l0 → l0 = []) →
        wlookup (strToLower pr.kind) m = some l → l ≠ [] →
        providerWhitelist g (some m) (some pr) = l) ∧
    (∀ (g : List String) (m : List (String × List String)) (pr : ProviderRec),
        (∀ l0, wlookup (strToLower pr.name) m = some l0 → l0 = []) →
        (∀ l0, wlookup (strToLower pr.kind) m = some l0 → l0 = []) →
        providerWhitelist g (some m) (some pr) = g) ∧
    (∀ (g : List String) (p : Option ProviderRec), providerWhitelist g none p = g) ∧
    (∀ (g : List String) (pw : Option (List (String × List String))),
        providerWhitelist g pw none = g) ∧
    (∀ ms : List PModel, filterModels ms [] = ms) ∧
    (∀ (ms : List PModel) (w : List String), w ≠ [] →
        filterModels ms w = ms.filter (fun md => decide (md.name ∈ w))) := by
  refine ⟨?_, ?_, ?_, ?_, ?_, ?_, ?_⟩
  · intro g m pr l hlk hne
    have hpos : 0 < l.length := List.length_pos.2 hne
    simp [providerWhitelist, hlk, hpos]
  · intro g m pr l hname hlk hne
    have hpos : 0 < l.length := List.length_pos.2 hne
    cases hn : wlookup (strToLower pr.name) m with
    | none => simp [providerWhitelist, hn, hlk, hpos]
    | some l0 =>
        have h0 : l0 = [] := hname l0 hn
        subst h0
        simp [providerWhitelist, hn, hlk, hpos]
  · intro g m pr hname hkind
    cases hn : wlookup (strToLower pr.name) m with
    | none =>
        cases hk : wlookup (strToLower pr.kind) m with
        | none => simp [providerWhitelist, hn, hk]
        | some l1 =>
            have h1 : l1 = [] := hkind l1 hk
            subst h1
            simp [providerWhitelist, hn, hk]
    | some l0 =>
        have h0 : l0 = [] := hname l0 hn
        subst h0
        cases hk : wlookup (strToLower pr.kind) m with
        | none => simp [providerWhitelist, hn, hk]
        | some l1 =>
            have h1 : l1 = [] := hkind l1 hk
            subst h1
            simp [providerWhitelist, hn, hk]
  · intro g p
    cases p <;> simp [providerWhitelist]
  · intro g pw
    cases pw <;> simp [providerWhitelist]
  · intro ms
    by_cases hm : ms.length = 0
    · have : ms = [] := List.length_eq_zero.1 hm
      subst this
      simp [filterModels]
    · simp [filterModels, hm]
  · intro ms w hw
    have hwl : ¬w.length = 0 := by
      intro h
      exact hw (List.length_eq_zero.1 h)
    by_cases hm : ms.length = 0
    · have : ms = [] := List.length_eq_zero.1 hm
      subst this
      simp [filterModels]
    · simp [filterModels, hm, hwl]

/-- Witness for C10: a per-name entry wins over kind and global; a blank
name entry with a kind entry; empty and non-empty filtering. -/
theorem c10_whitelist_precedence_witness :
    providerWhitelist ["g"] (some [("openai", ["a"]), ("oai", ["b"])])
        (some ({ name := "OpenAI", kind := "oai" })) = ["a"] ∧
    providerWhitelist ["g"] (some [("openai", []), ("oai", ["b"])])
        (some ({ name := "OpenAI", kind := "oai" })) = ["b"] ∧
    providerWhitelist ["g"] (some [("openai", [])])
        (some ({ name := "OpenAI", kind := "oai" })) = ["g"] ∧
    providerWhitelist ["g"] none (some ({ name := "OpenAI", kind := "oai" })) = ["g"] ∧
    filterModels [sampleModelA, sampleModelB] [] = [sampleModelA, sampleModelB] ∧
    filterModels [sampleModelA, sampleModelB] ["m2"]
      = List.filter (fun md => decide (md.name ∈ (["m2"] : List String)))
          [sampleModelA, sampleModelB] :=
  ⟨c10_whitelist_precedence.1 ["g"] [("openai", ["a"]), ("oai", ["b"])]
      ({ name := "OpenAI", kind := "oai" }) ["a"] (by decide) (by decide),
   c10_whitelist_precedence.2.1 ["g"] [("openai", []), ("oai", ["b"])]
      ({ name := "OpenAI", kind := "oai" }) ["b"] (by decide) (by decide) (by decide),
   c10_whitelist_precedence.2.2.1 ["g"] [("openai", [])]
      ({ name := "OpenAI", kind := "oai" }) (by decide) (by decide),
   c10_whitelist_precedence.2.2.2.1 ["g"] _,
   c10_whitelist_precedence.2.2.2.2.2.1 _,
   c10_whitelist_precedence.2.2.2.2.2.2 _ ["m2"] (by decide)⟩

/-- The row contribution and visibility effect of one catalog fetch
message on an open catalog: rows are extended by the message's own rows,
nothing is removed or rewritten, and the catalog stays open. -/
theorem applyModelFetch_rows (m : CatalogState) (msg : FetchMsg) (hv : m.visible = true) :
    (applyModelFetch m msg).rows = m.rows ++ fetchRows msg ∧
    (applyModelFetch m msg).visible = true := by
  unfold applyModelFetch fetchRows
  cases he : msg.err with
  | some e => simp [hv]
  | none =>
      by_cases hm : msg.models.length = 0
      · simp [hv, hm]
      · simp [hv, hm]

/-- C5: each provider's catalog result is applied independently, in any
arrival order: a message only appends that provider's own rows (a failed
fetch contributes exactly one error row, an empty filtered result exactly
one "no models match" row, a successful fetch one selectable row per
model), never removing or altering other providers' rows, and the rows
after two providers' messages are a permutation of the rows with the
arrival order swapped. -/
theorem c5_catalog_rows_independent (m : CatalogState) (m1 m2 : FetchMsg)
    (hv : m.visible = true) :
    ((applyModelFetch m m1).rows = m.rows ++ fetchRows m1) ∧
    (∀ (msg : FetchMsg) (e : String), msg.err = some e →
        fetchRows msg = [errorRow msg.provider e]) ∧
    (∀ (p : String) (wl : List String) (ms : List PModel), filterModels ms wl = [] →
        fetchRows (fetchModelsMsg p wl (Except.ok ms)) = [noMatchRow p]) ∧
    (∀ (msg : FetchMsg), msg.err = none → msg.models ≠ [] →
        fetchRows msg = msg.models.map (modelRow msg.provider)) ∧
    List.Perm (applyModelFetch (applyModelFetch m m1) m2).rows
      (applyModelFetch (applyModelFetch m m2) m1).rows := by
  refine ⟨(applyModelFetch_rows m m1 hv).1, ?_, ?_, ?_, ?_⟩
  · intro msg e he
    simp [fetchRows, he]
  · intro p wl ms h
    simp [fetchModelsMsg, fetchRows, h]
  · intro msg he hne
    have hm : ¬msg.models.length = 0 := by
      intro h
      exact hne (List.length_eq_zero.1 h)
    simp [fetchRows, he, hm]
  · have a1 := applyModelFetch_rows m m1 hv
    have a2 := applyModelFetch_rows (applyModelFetch m m1) m2 a1.2
    have b1 := applyModelFetch_rows m m2 hv
    have b2 := applyModelFetch_rows (applyModelFetch m m2) m1 b1.2
    rw [a2.1, a1.1, b2.1, b1.1, List.append_assoc, List.append_assoc]
    exact List.Perm.append_left _ List.perm_append_comm

/-- Witness for C5: an open catalog, one successful two-model fetch and one
timed-out fetch, applied in both orders. -/
theorem c5_catalog_rows_independent_witness :
    ((applyModelFetch sampleCat sampleMsgOk).rows = sampleCat.rows ++ fetchRows sampleMsgOk) ∧
    fetchRows sampleMsgErr = [errorRow ("p2") ("timeout")] ∧
    fetchRows (fetchModelsMsg ("p1") (["zzz"]) (Except.ok [sampleModelA])) = [noMatchRow ("p1")] ∧
    List.Perm (applyModelFetch (applyModelFetch sampleCat sampleMsgOk) sampleMsgErr).rows
      (applyModelFetch (applyModelFetch sampleCat sampleMsgErr) sampleMsgOk).rows := by
  have h := c5_catalog_rows_independent sampleCat sampleMsgOk sampleMsgErr rfl
  exact ⟨h.1, h.2.1 sampleMsgErr ("timeout") rfl, h.2.2.1 ("p1") (["zzz"]) [sampleModelA] (by decide),
    h.2.2.2.2⟩

/-! Stream-coordination lemmas. -/

theorem finish_messages (m : ChatState) :
    (finishResponseStream m).messages = m.messages := by
  unfold finishResponseStream
  split <;> rfl

theorem finish_pending (m : ChatState) :
    (finishResponseStream m).pendingResponse = none := by
  unfold finishResponseStream
  split
  · rename_i heq
    exact heq
  · rfl

theorem applyChunk_of_pending_none (sid : Nat) (text : String) (isErr : Bool) (errText : String)
    (done : Bool) (m : ChatState) (h : m.pendingResponse = none) :
    applyResponseChunk sid text isErr errText done m = m := by
  unfold applyResponseChunk
  rw [h]

theorem cancelKey_of_pending_none (m : ChatState) (h : m.pendingResponse = none) :
    cancelResponseKey m = m := by
  unfold cancelResponseKey
  rw [h]
  rfl

/-- With no pending response and no new stream begun, every serialized
event of the modeled fragment leaves the chat state exactly unchanged. -/
theorem chatTrace_of_pending_none (evs : List ChatEv) (m : ChatState)
    (h : m.pendingResponse = none) (hnb : noBegin evs = true) :
    chatTrace m evs = m := by
  induction evs with
  | nil => rfl
  | cons e rest ih =>
      cases e with
      | begin sid ok et => simp [noBegin] at hnb
      | chunk sid text isErr et done =>
          have hnb' : noBegin rest = true := by
            simp [noBegin] at hnb ⊢
            exact hnb
          show chatTrace (chatStep m (ChatEv.chunk sid text isErr et done)) rest = m
          rw [show chatStep m (ChatEv.chunk sid text isErr et done)
              = applyResponseChunk sid text isErr et done m from rfl,
            applyChunk_of_pending_none _ _ _ _ _ _ h]
          exact ih hnb'
      | cancelKey =>
          have hnb' : noBegin rest = true := by
            simp [noBegin] at hnb ⊢
            exact hnb
          show chatTrace (chatStep m ChatEv.cancelKey) rest = m
          rw [show chatStep m ChatEv.cancelKey = cancelResponseKey m from rfl,
            cancelKey_of_pending_none m h]
          exact ih hnb'

theorem replace_take (m : ChatState) (ref : BlockRef) (t : String) (b : List String) (k : Nat)
    (hk₁ : k ≤ ref.start) (hk₂ : k ≤ m.messages.length) :
    (replaceHistoryBlock m ref t b).2.messages.take k = m.messages.take k ∧
    k ≤ (replaceHistoryBlock m ref t b).1.start ∧
    k ≤ (replaceHistoryBlock m ref t b).2.messages.length := by
  have hstart : k ≤ min ref.start m.messages.length := le_min hk₁ hk₂
  unfold replaceHistoryBlock
  dsimp only
  refine ⟨?_, hstart, ?_⟩
  · rw [List.append_assoc,
      List.take_append_of_le_length (by rw [List.length_take]; exact le_min hstart hk₂),
      List.take_take, Nat.min_eq_left hstart]
  · rw [List.length_append, List.length_append, List.length_take]
    omega

/-- Explicit shape of a successful `beginResponseStream`: finalize any
pending response, append the placeholder block, install the fresh pending
response, open the stream. -/
theorem begin_ok_shape (sid : Nat) (et : String) (m : ChatState)
    (hprov : m.providerSet = true) :
    beginResponseStream sid true et m
      = (let m1 := if m.pendingResponse.isSome then finishResponseStream m else m
         let title := streamTitle m1
         let lines := historyBlockLines title ["…"]
         let pr : StreamingResponse :=
           { title := title, block := ⟨m1.messages.length, lines.length⟩, buffer := "",
             sid := sid, origins := [] }
         { m1 with messages := m1.messages ++ lines, streamOpen := true,
                   pendingResponse := some pr }) := by
  unfold beginResponseStream appendHistoryBlockRef
  rw [if_neg (by simp [hprov])]
  rfl

/-- Explicit shape of a failed `beginResponseStream` (`StreamChat` returned
an error): the fresh pending response is finalized immediately and the
error is printed. -/
theorem begin_fail_shape (sid : Nat) (et : String) (m : ChatState)
    (hprov : m.providerSet = true) :
    beginResponseStream sid false et m
      = (let m1 := if m.pendingResponse.isSome then finishResponseStream m else m
         let title := streamTitle m1
         let lines := historyBlockLines title ["…"]
         { m1 with messages := (m1.messages ++ lines) ++ ["pfui: " ++ et],
                   streamOpen := false, pendingResponse := none,
                   closedStreams := m1.closedStreams ++ [sid],
                   finalizedOrigins := m1.finalizedOrigins ++ [[]] }) := by
  unfold beginResponseStream appendHistoryBlockRef finishResponseStream
  rw [if_neg (by simp [hprov])]
  rfl

/-- One serialized event never rewrites the first `k` transcript lines when
every pending block starts at or after line `k`, and it preserves that
bound. -/
theorem chatStep_take (k : Nat) (m : ChatState) (e : ChatEv) (h : PendOk k m) :
    (chatStep m e).messages.take k = m.messages.take k ∧ PendOk k (chatStep m e) := by
  obtain ⟨hk, hp⟩ := h
  have htake_app : ∀ (extra : List String), (m.messages ++ extra).take k = m.messages.take k :=
    fun extra => List.take_append_of_le_length hk
  cases e with
  | cancelKey =>
      show (cancelResponseKey m).messages.take k = _ ∧ PendOk k (cancelResponseKey m)
      unfold cancelResponseKey
      by_cases hpe : m.pendingResponse.isSome
      · rw [if_pos hpe]
        dsimp only
        refine ⟨?_, ?_, ?_⟩
        · rw [finish_messages]
          exact htake_app _
        · rw [List.length_append, finish_messages]
          exact le_trans hk (Nat.le_add_right _ _)
        · intro q hq
          have : (finishResponseStream m).pendingResponse = some q := hq
          rw [finish_pending] at this
          cases this
      · rw [if_neg hpe]
        exact ⟨rfl, hk, hp⟩
  | chunk sid text isErr et done =>
      show (applyResponseChunk sid text isErr et done m).messages.take k = _ ∧
        PendOk k (applyResponseChunk sid text isErr et done m)
      unfold applyResponseChunk
      cases hpe : m.pendingResponse with
      | none =>
          exact ⟨rfl, hk, fun q hq => hp q hq⟩
      | some p =>
          have hps : k ≤ p.block.start := hp p hpe
          dsimp only
          cases isErr with
          | true =>
              rw [if_pos rfl]
              refine ⟨?_, ?_, ?_⟩
              · rw [finish_messages]
                exact htake_app _
              · rw [finish_messages]
                dsimp only
                rw [List.length_append]
                exact le_trans hk (Nat.le_add_right _ _)
              · intro q hq
                rw [finish_pending] at hq
                cases hq
          | false =>
              rw [if_neg Bool.false_ne_true]
              cases hb : (text == "") with
              | true =>
                  simp only [hb, Bool.not_true]
                  rw [if_neg Bool.false_ne_true]
                  cases done with
                  | true =>
                      rw [if_pos rfl]
                      refine ⟨?_, ?_, ?_⟩
                      · rw [finish_messages]
                      · rw [finish_messages]
                        exact hk
                      · intro q hq
                        rw [finish_pending] at hq
                        cases hq
                  | false =>
                      rw [if_neg Bool.false_ne_true]
                      exact ⟨rfl, hk, fun q hq => hp q hq⟩
              | false =>
                  simp only [hb, Bool.not_false, if_true]
                  have hrep := replace_take m p.block p.title
                    (splitLines (p.buffer ++ text)) k hps hk
                  cases done with
                  | true =>
                      rw [if_pos rfl]
                      refine ⟨?_, ?_, ?_⟩
                      · rw [finish_messages]
                        exact hrep.1
                      · rw [finish_messages]
                        exact hrep.2.2
                      · intro q hq
                        rw [finish_pending] at hq
                        cases hq
                  | false =>
                      rw [if_neg Bool.false_ne_true]
                      refine ⟨hrep.1, hrep.2.2, ?_⟩
                      intro q hq
                      have hq' : q.block = (replaceHistoryBlock m p.block p.title
                          (splitLines (p.buffer ++ text))).1 := by
                        cases hq
                        rfl
                      rw [hq']
                      exact hrep.2.1
  | begin sid ok et =>
      show (beginResponseStream sid ok et m).messages.take k = _ ∧
        PendOk k (beginResponseStream sid ok et m)
      by_cases hprov : m.providerSet = true
      · cases hok : ok with
        | true =>
            rw [begin_ok_shape sid et m hprov]
            dsimp only
            have hm1msg :
                (if m.pendingResponse.isSome then finishResponseStream m else m).messages
                  = m.messages := by
              split
              · exact finish_messages m
              · rfl
            refine ⟨?_, ?_, ?_⟩
            · rw [hm1msg]
              exact htake_app _
            · rw [List.length_append, hm1msg]
              exact le_trans hk (Nat.le_add_right _ _)
            · intro q hq
              have hq' : q.block.start
                  = (if m.pendingResponse.isSome then finishResponseStream m else m).messages.length := by
                cases hq
                rfl
              rw [hq', hm1msg]
              exact hk
        | false =>
            rw [begin_fail_shape sid et m hprov]
            dsimp only
            have hm1msg :
                (if m.pendingResponse.isSome then finishResponseStream m else m).messages
                  = m.messages := by
              split
              · exact finish_messages m
              · rfl
            refine ⟨?_, ?_, ?_⟩
            · rw [hm1msg, List.append_assoc]
              exact htake_app _
            · rw [List.length_append, List.length_append, hm1msg]
              exact le_trans hk (by omega)
            · intro q hq
              cases hq
      · show (beginResponseStream sid ok et m).messages.take k = _ ∧
          PendOk k (beginResponseStream sid ok et m)
        unfold beginResponseStream
        rw [if_pos (by simp [hprov])]
        exact ⟨rfl, hk, hp⟩

/-- Iterated form of `chatStep_take`: no suffix of serialized events ever
rewrites the protected transcript prefix. -/
theorem chatTrace_take (k : Nat) (evs : List ChatEv) (m : ChatState) (h : PendOk k m) :
    (chatTrace m evs).messages.take k = m.messages.take k ∧ PendOk k (chatTrace m evs) := by
  induction evs generalizing m with
  | nil => exact ⟨rfl, h⟩
  | cons e rest ih =>
      have hstep := chatStep_take k m e h
      have hrest := ih (chatStep m e) hstep.2
      exact ⟨by rw [show chatTrace m (e :: rest) = chatTrace (chatStep m e) rest from rfl,
        hrest.1, hstep.1], hrest.2⟩

theorem finish_title (m : ChatState) :
    streamTitle (finishResponseStream m) = streamTitle m := by
  unfold finishResponseStream
  split <;> rfl

theorem finish_closed_of_pending {m : ChatState} {p : StreamingResponse}
    (hp : m.pendingResponse = some p) :
    (finishResponseStream m).closedStreams = m.closedStreams ++ [p.sid] ∧
    (finishResponseStream m).finalizedOrigins = m.finalizedOrigins ++ [p.origins] := by
  unfold finishResponseStream
  rw [hp]
  exact ⟨rfl, rfl⟩

/-- C3 as stated fails on the code: after stream 0 is canceled (the ghost
`closedStreams` holds 0) and stream 1 has begun, a chunk of stream 0 still
in flight from the read outstanding at cancellation is applied — it changes
the transcript and is accumulated (ghost contributor 0) into stream 1's
pending block — because `responseChunkMsg` carries no stream identity and
`Update` applies any chunk to whatever response is pending. -/
theorem c3_counterexample :
    ValidChatTrace (cexCancelTrace ++ [ChatEv.chunk 0 ("x") false ("") false]) ∧
    0 ∈ (chatTrace initChat cexCancelTrace).closedStreams ∧
    (chatStep (chatTrace initChat cexCancelTrace)
        (ChatEv.chunk 0 ("x") false ("") false)).messages
      ≠ (chatTrace initChat cexCancelTrace).messages ∧
    Option.map StreamingResponse.origins
        ((chatStep (chatTrace initChat cexCancelTrace)
          (ChatEv.chunk 0 ("x") false ("") false)).pendingResponse)
      = some [0] := by
  refine ⟨by unfold ValidChatTrace; decide, by decide, by decide, by decide⟩

/-- C3 amended: canceling a pending stream appends only the cancellation
notice, closes the stream, and from then on — as long as no new stream is
begun — every chunk message is discarded and the state is unchanged; the
canceled stream's transcript block is never modified again by any event
sequence whatsoever.  (A chunk of the canceled stream delivered after a
new stream begins is, however, applied to the new stream's block:
`c3_counterexample`.) -/
theorem c3_cancel_discards (m : ChatState) (p : StreamingResponse) (evs : List ChatEv)
    (hp : m.pendingResponse = some p)
    (hk : p.block.start + p.block.length ≤ m.messages.length) :
    (chatStep m ChatEv.cancelKey).messages
      = m.messages ++ ["pfui: canceled response stream"] ∧
    (chatStep m ChatEv.cancelKey).pendingResponse = none ∧
    p.sid ∈ (chatStep m ChatEv.cancelKey).closedStreams ∧
    (∀ evs2 : List ChatEv, noBegin evs2 = true →
        chatTrace (chatStep m ChatEv.cancelKey) evs2 = chatStep m ChatEv.cancelKey) ∧
    (chatTrace (chatStep m ChatEv.cancelKey) evs).messages.take
        (p.block.start + p.block.length)
      = m.messages.take (p.block.start + p.block.length) := by
  have hsome : m.pendingResponse.isSome := by rw [hp]; rfl
  have hstep : chatStep m ChatEv.cancelKey = cancelResponseKey m := rfl
  have hmsg : (chatStep m ChatEv.cancelKey).messages
      = m.messages ++ ["pfui: canceled response stream"] := by
    rw [hstep]
    unfold cancelResponseKey
    rw [if_pos hsome]
    dsimp only
    rw [finish_messages]
  have hpend : (chatStep m ChatEv.cancelKey).pendingResponse = none := by
    rw [hstep]
    unfold cancelResponseKey
    rw [if_pos hsome]
    exact finish_pending m
  have hclosed : (chatStep m ChatEv.cancelKey).closedStreams
      = m.closedStreams ++ [p.sid] := by
    rw [hstep]
    unfold cancelResponseKey
    rw [if_pos hsome]
    exact (finish_closed_of_pending hp).1
  have hPO : PendOk (p.block.start + p.block.length) (chatStep m ChatEv.cancelKey) := by
    constructor
    · rw [hmsg, List.length_append]
      exact le_trans hk (Nat.le_add_right _ _)
    · intro q hq
      rw [hpend] at hq
      cases hq
  refine ⟨hmsg, hpend, by rw [hclosed]; simp, ?_, ?_⟩
  · intro evs2 hnb
    exact chatTrace_of_pending_none evs2 _ hpend hnb
  · rw [(chatTrace_take _ evs _ hPO).1, hmsg,
      List.take_append_of_le_length hk]

/-- Witness for C3 (amended) at the concrete state `sampleChat` (stream 0
pending with one applied chunk). -/
theorem c3_cancel_discards_witness :
    (chatStep sampleChat ChatEv.cancelKey).messages
      = sampleChat.messages ++ ["pfui: canceled response stream"] ∧
    (chatStep sampleChat ChatEv.cancelKey).pendingResponse = none ∧
    (0 : Nat) ∈ (chatStep sampleChat ChatEv.cancelKey).closedStreams ∧
    chatTrace (chatStep sampleChat ChatEv.cancelKey)
        [ChatEv.chunk 0 ("zzz") false ("") false, ChatEv.chunk 9 ("w") true ("boom") true]
      = chatStep sampleChat ChatEv.cancelKey ∧
    (chatTrace (chatStep sampleChat ChatEv.cancelKey)
        [ChatEv.begin 1 true (""), ChatEv.chunk 1 ("b") false ("") false]).messages.take
        (sampleChatPending.block.start + sampleChatPending.block.length)
      = sampleChat.messages.take
        (sampleChatPending.block.start + sampleChatPending.block.length) := by
  have h := c3_cancel_discards sampleChat sampleChatPending
    [ChatEv.begin 1 true (""), ChatEv.chunk 1 ("b") false ("") false]
    (by decide) (by decide)
  exact ⟨h.1, h.2.1, h.2.2.1, h.2.2.2.1 _ (by decide), h.2.2.2.2⟩

/-- C2 as stated fails on the code: in the realizable sequence
`cexMixTrace`, the block created for stream 1 accumulates chunk text from
both stream 0 (a chunk in flight when stream 1 superseded it) and stream 1
— its archived contributor set is `[0, 1]` — so a transcript block can
contain text from two different streams. -/
theorem c2_counterexample :
    ValidChatTrace cexMixTrace ∧
    (chatTrace initChat cexMixTrace).finalizedOrigins = [[0], [0, 1]] ∧
    (0 : Nat) ≠ 1 := by
  refine ⟨by unfold ValidChatTrace; decide, by decide, by decide⟩

/-- C2 amended: at most one streaming block is pending at a time (the
pending response is a single optional value), and beginning a new stream
while one is pending first finalizes the previous stream — archiving its
buffer's contributor set and closing it — then creates a fresh block after
the end of the transcript with an empty buffer and no contributors, and
the previous stream's block lines are never modified afterwards by any
event sequence.  (A chunk of the superseded stream still in flight is,
however, applied to the new block once delivered: `c2_counterexample`.) -/
theorem c2_begin_supersede (m : ChatState) (p : StreamingResponse) (sid : Nat) (et : String)
    (evs : List ChatEv) (hp : m.pendingResponse = some p) (hprov : m.providerSet = true)
    (hk : p.block.start + p.block.length ≤ m.messages.length) :
    (beginResponseStream sid true et m).finalizedOrigins
      = m.finalizedOrigins ++ [p.origins] ∧
    p.sid ∈ (beginResponseStream sid true et m).closedStreams ∧
    (beginResponseStream sid true et m).pendingResponse = some (freshPending m sid) ∧
    p.block.start + p.block.length ≤ m.messages.length ∧
    (beginResponseStream sid true et m).messages.take (p.block.start + p.block.length)
      = m.messages.take (p.block.start + p.block.length) ∧
    (chatTrace (beginResponseStream sid true et m) evs).messages.take
        (p.block.start + p.block.length)
      = m.messages.take (p.block.start + p.block.length) := by
  have hsome : m.pendingResponse.isSome := by rw [hp]; rfl
  have hshape := begin_ok_shape sid et m hprov
  rw [if_pos hsome] at hshape
  have hmsg : (beginResponseStream sid true et m).messages
      = m.messages ++ historyBlockLines (streamTitle (finishResponseStream m)) ["…"] := by
    rw [hshape]
    dsimp only
    rw [finish_messages]
  have hfin : (beginResponseStream sid true et m).finalizedOrigins
      = m.finalizedOrigins ++ [p.origins] := by
    rw [hshape]
    exact (finish_closed_of_pending hp).2
  have hcl : (beginResponseStream sid true et m).closedStreams
      = m.closedStreams ++ [p.sid] := by
    rw [hshape]
    exact (finish_closed_of_pending hp).1
  have hpendshape : (beginResponseStream sid true et m).pendingResponse
      = some (freshPending m sid) := by
    rw [hshape]
    unfold freshPending
    dsimp only
    rw [finish_title, finish_messages]
  have hPO : PendOk (p.block.start + p.block.length) (beginResponseStream sid true et m) := by
    constructor
    · rw [hmsg, List.length_append]
      exact le_trans hk (Nat.le_add_right _ _)
    · intro q hq
      rw [hpendshape] at hq
      cases hq
      exact hk
  refine ⟨hfin, by rw [hcl]; simp, hpendshape, hk, ?_, ?_⟩
  · rw [hmsg, List.take_append_of_le_length hk]
  · rw [(chatTrace_take _ evs _ hPO).1, hmsg, List.take_append_of_le_length hk]

/-- Witness for C2 (amended) at the concrete state `sampleChat`: stream 1
supersedes stream 0. -/
theorem c2_begin_supersede_witness :
    (beginResponseStream 1 true ("") sampleChat).finalizedOrigins
      = sampleChat.finalizedOrigins ++ [sampleChatPending.origins] ∧
    (0 : Nat) ∈ (beginResponseStream 1 true ("") sampleChat).closedStreams ∧
    (beginResponseStream 1 true ("") sampleChat).pendingResponse
      = some (freshPending sampleChat 1) ∧
    (chatTrace (beginResponseStream 1 true ("") sampleChat)
        [ChatEv.chunk 0 ("x") false ("") false,
         ChatEv.chunk 1 ("b") false ("") false]).messages.take
        (sampleChatPending.block.start + sampleChatPending.block.length)
      = sampleChat.messages.take
        (sampleChatPending.block.start + sampleChatPending.block.length) := by
  have h := c2_begin_supersede sampleChat sampleChatPending 1 ("")
    [ChatEv.chunk 0 ("x") false ("") false, ChatEv.chunk 1 ("b") false ("") false]
    (by decide) (by decide) (by decide)
  exact ⟨h.1, h.2.1, h.2.2.1, h.2.2.2.2.2⟩

end Pfui
